import Mathlib

/-!
Verification development for the tuning-buddy query-optimization engine.

The definitions below are shallow embeddings of the Python sources:
  * `src/advisor/services/query_analyzer.py` (plan analyzer, query validator),
  * `src/advisor/services/gemini_client.py` (AI provider fallback and response
    normalization),
  * `src/advisor/services/optimizer.py` (the per-recommendation test-and-refine
    loop, the improvement computation, and the final ranking).

Numeric values that Python holds as floats are modelled as rationals (`ℚ`);
JSON dictionaries are modelled either as structures with `Option`-valued
fields (field present / absent) or as an explicit `Json` inductive; Python
exceptions are modelled as `Except`/an `Option String` exception slot, and the
`try/finally` of the optimizer is embedded explicitly.  External effects
(database calls, AI provider calls) are supplied by an environment record so
that theorems quantify over every possible behaviour of the collaborators.
-/

/-! ### Execution plans (`query_analyzer.py`, `ExecutionPlanAnalyzer`) -/

/-- A node of a PostgreSQL execution-plan tree, as consumed by
`ExecutionPlanAnalyzer`: `nodeType` models `node.get('Node Type', '')` and
`plans` models `node.get('Plans', [])`.  A JSON value that is not a dict
behaves exactly like `⟨"", []⟩` in every traversal of the source, so plan
children are modelled as `PNode`s. -/
inductive PNode where
  | mk (nodeType : String) (plans : List PNode)

/-- The `Node Type` entry of a plan node (`node.get('Node Type', '')`). -/
def PNode.nodeType : PNode → String
  | .mk t _ => t

/-- The `Plans` entry of a plan node (`node.get('Plans', [])`). -/
def PNode.plans : PNode → List PNode
  | .mk _ ps => ps

/-- A top-level EXPLAIN JSON document: `planKey` is the value of the
`"Plan"` key when present, `selfNode` is the document itself viewed as a plan
node; the source reads `plan_node = plan.get('Plan', plan)`. -/
structure Plan where
  planKey : Option PNode
  selfNode : PNode

/-- `plan.get('Plan', plan)` from the source: the effective root node. -/
def Plan.root (p : Plan) : PNode :=
  p.planKey.getD p.selfNode

mutual
/-- `traverse_for_seq_scan` from `ExecutionPlanAnalyzer.has_seq_scan`
(query_analyzer.py lines 193-206): return true on a node of type
`'Seq Scan'`, otherwise search the children. -/
def traverseForSeqScan : PNode → Bool
  | .mk nt cs => nt == "Seq Scan" || traverseForSeqScanList cs

/-- The child loop of `traverse_for_seq_scan`: return true as soon as some
child traversal returns true. -/
def traverseForSeqScanList : List PNode → Bool
  | [] => false
  | c :: cs => traverseForSeqScan c || traverseForSeqScanList cs
end

/-- `ExecutionPlanAnalyzer.has_seq_scan` (query_analyzer.py lines 183-209). -/
def ExecutionPlanAnalyzer.has_seq_scan (p : Plan) : Bool :=
  traverseForSeqScan p.root

mutual
/-- All nodes of a plan tree (the node itself and, recursively, the nodes of
all children), the domain over which the spec quantifies "some node in the
tree". -/
def planNodes : PNode → List PNode
  | .mk nt cs => .mk nt cs :: planNodesList cs

/-- All nodes of a list of plan trees. -/
def planNodesList : List PNode → List PNode
  | [] => []
  | c :: cs => planNodes c ++ planNodesList cs
end

mutual
/-- The traversal is true exactly when some node in the tree is a `Seq Scan`. -/
theorem traverseForSeqScan_iff (n : PNode) :
    traverseForSeqScan n = true ↔ ∃ m ∈ planNodes n, m.nodeType = "Seq Scan" := by
  match n with
  | .mk nt cs =>
    simp only [traverseForSeqScan, planNodes, Bool.or_eq_true, beq_iff_eq,
      List.mem_cons, exists_eq_or_imp]
    rw [traverseForSeqScanList_iff cs]
    constructor
    · rintro (h | h)
      · exact Or.inl h
      · exact Or.inr h
    · rintro (h | h)
      · exact Or.inl h
      · exact Or.inr h

/-- List version of `traverseForSeqScan_iff`. -/
theorem traverseForSeqScanList_iff (l : List PNode) :
    traverseForSeqScanList l = true ↔ ∃ m ∈ planNodesList l, m.nodeType = "Seq Scan" := by
  match l with
  | [] => simp [traverseForSeqScanList, planNodesList]
  | c :: cs =>
    simp only [traverseForSeqScanList, planNodesList, Bool.or_eq_true, List.mem_append]
    rw [traverseForSeqScan_iff c, traverseForSeqScanList_iff cs]
    constructor
    · rintro (⟨m, hm, ht⟩ | ⟨m, hm, ht⟩)
      · exact ⟨m, Or.inl hm, ht⟩
      · exact ⟨m, Or.inr hm, ht⟩
    · rintro ⟨m, hm | hm, ht⟩
      · exact Or.inl ⟨m, hm, ht⟩
      · exact Or.inr ⟨m, hm, ht⟩
end

/-- C2: for every plan tree, of any nesting depth and branching factor,
`has_seq_scan` returns true if and only if some node of the (effective root)
tree has node type `'Seq Scan'`. -/
theorem C2_has_seq_scan_iff_some_node (p : Plan) :
    ExecutionPlanAnalyzer.has_seq_scan p = true ↔
      ∃ m ∈ planNodes p.root, m.nodeType = "Seq Scan" :=
  traverseForSeqScan_iff p.root

/-! ### Query validation (`query_analyzer.py`, `QueryValidator.validate`)

The validator runs `re.search(pattern, query, re.IGNORECASE)` for each entry
of `DANGEROUS_PATTERNS`.  The eight patterns use only the constructs
literal, `\b`, `\s`, `\w`, `.`, `*`, `+`, `(?:a|b)`, `$` and `(?!...)`, so we
embed a small backtracking matcher for exactly these constructs
(ASCII semantics for `\s`/`\w`, which covers SQL text).  `re.search`
succeeds iff some path of the backtracking search matches, so the matcher
collects every reachable end state. -/

/-- Python `\w` on ASCII input: letters, digits and underscore. -/
def isWordChar (c : Char) : Bool :=
  c.isAlpha || c.isDigit || c == '_'

/-- Python `\s` on ASCII input. -/
def isSpaceChar (c : Char) : Bool :=
  c == ' ' || c == '\t' || c == '\n' || c == '\r' || c == '\x0b' || c == '\x0c'

/-- Python `.` without `re.DOTALL`: any character except a newline. -/
def isDotChar (c : Char) : Bool :=
  c != '\n'

/-- Abstract form of the regular-expression constructs used by
`DANGEROUS_PATTERNS`: character classes, star over a class, sequencing,
alternation, the word boundary `\b`, the end anchor `$`, and negative
lookahead `(?!...)`. -/
inductive RE where
  | eps
  | cls (p : Char → Bool)
  | star (p : Char → Bool)
  | seq (a b : RE)
  | alt (a b : RE)
  | wordB
  | eolAnchor
  | nla (r : RE)

/-- Word-boundary test at a position: `pc` is the character just before the
position (none at the start of the haystack), `s` the remaining input. -/
def wordBoundaryAt (pc : Option Char) (s : List Char) : Bool :=
  let prevW := match pc with | some c => isWordChar c | none => false
  let nextW := match s with | c :: _ => isWordChar c | [] => false
  prevW != nextW

/-- All end states of `p*` started at `(pc, s)`: stop immediately or, when the
next character is in the class, consume it and continue. -/
def starEnds (p : Char → Bool) : Option Char → List Char → List (Option Char × List Char)
  | pc, [] => [(pc, [])]
  | pc, c :: rest =>
    (pc, c :: rest) :: (if p c then starEnds p (some c) rest else [])

/-- All end states (character before the current position, remaining input)
reachable by matching `re` at the start of `s`; `re.search` finds a match at
this position iff the list is nonempty. -/
def matchEnds : RE → Option Char → List Char → List (Option Char × List Char)
  | .eps, pc, s => [(pc, s)]
  | .cls _, _, [] => []
  | .cls p, _, c :: rest => if p c then [(some c, rest)] else []
  | .star p, pc, s => starEnds p pc s
  | .seq a b, pc, s => (matchEnds a pc s).flatMap fun e => matchEnds b e.1 e.2
  | .alt a b, pc, s => matchEnds a pc s ++ matchEnds b pc s
  | .wordB, pc, s => if wordBoundaryAt pc s then [(pc, s)] else []
  | .eolAnchor, pc, s =>
    if s = [] ∨ s = ['\n'] then [(pc, s)] else []
  | .nla r, pc, s => if (matchEnds r pc s).isEmpty then [(pc, s)] else []

/-- Try to match `re` at the current position and at every later position of
the haystack, as `re.search` does. -/
def searchFrom (re : RE) (pc : Option Char) (s : List Char) : Bool :=
  !(matchEnds re pc s).isEmpty ||
    (match s with
     | [] => false
     | c :: rest => searchFrom re (some c) rest)

/-- `re.search(pattern, s, re.IGNORECASE) is not None` for the supported
pattern fragment. -/
def reSearch (re : RE) (s : String) : Bool :=
  searchFrom re none s.toList

/-- A case-insensitive literal character (`re.IGNORECASE`). -/
def reLit (c : Char) : RE :=
  .cls (fun d => d.toLower == c.toLower)

/-- A case-insensitive literal string. -/
def reLitStr (s : String) : RE :=
  s.toList.foldr (fun c r => .seq (reLit c) r) .eps

/-- `p+` for a character class, i.e. one occurrence followed by `p*`. -/
def rePlusCls (p : Char → Bool) : RE :=
  .seq (.cls p) (.star p)

/-- `\bDROP\s+` (and, with other literals, `TRUNCATE`/`ALTER`/`GRANT`/
`REVOKE`), query_analyzer.py lines 14-21. -/
def keywordPattern (kw : String) : RE :=
  .seq .wordB (.seq (reLitStr kw) (rePlusCls isSpaceChar))

/-- `\bDELETE\s+FROM\s+\w+\s*(?:;|$)` (query_analyzer.py line 16). -/
def deletePattern : RE :=
  .seq .wordB <| .seq (reLitStr "DELETE") <| .seq (rePlusCls isSpaceChar) <|
    .seq (reLitStr "FROM") <| .seq (rePlusCls isSpaceChar) <|
    .seq (rePlusCls isWordChar) <| .seq (.star isSpaceChar) <|
    .alt (reLit ';') .eolAnchor

/-- `\bUPDATE\s+\w+\s+SET\s+.*(?:;|$)(?!\s*WHERE)` (query_analyzer.py
line 17).  Note the negative lookahead sits after `(?:;|$)`. -/
def updatePattern : RE :=
  .seq .wordB <| .seq (reLitStr "UPDATE") <| .seq (rePlusCls isSpaceChar) <|
    .seq (rePlusCls isWordChar) <| .seq (rePlusCls isSpaceChar) <|
    .seq (reLitStr "SET") <| .seq (rePlusCls isSpaceChar) <|
    .seq (.star isDotChar) <|
    .seq (.alt (reLit ';') .eolAnchor)
      (.nla (.seq (.star isSpaceChar) (reLitStr "WHERE")))

/-- `\bCREATE\s+(?!INDEX)` (query_analyzer.py line 19). -/
def createPattern : RE :=
  .seq .wordB <| .seq (reLitStr "CREATE") <| .seq (rePlusCls isSpaceChar)
    (.nla (reLitStr "INDEX"))

/-- `DANGEROUS_PATTERNS` (query_analyzer.py lines 13-22), in source order. -/
def DANGEROUS_PATTERNS : List (RE × String) :=
  [ (keywordPattern "DROP", "DROP statements are not allowed"),
    (keywordPattern "TRUNCATE", "TRUNCATE statements are not allowed"),
    (deletePattern, "DELETE without WHERE clause is not allowed"),
    (updatePattern, "UPDATE without WHERE clause is dangerous"),
    (keywordPattern "ALTER", "ALTER statements are not allowed"),
    (createPattern, "CREATE statements (except INDEX) are not allowed"),
    (keywordPattern "GRANT", "GRANT statements are not allowed"),
    (keywordPattern "REVOKE", "REVOKE statements are not allowed") ]

/-- Python `query.strip().upper()` on ASCII input: drop whitespace from both
ends, then upper-case every character. -/
def pyStripUpper (s : String) : List Char :=
  (((s.toList.dropWhile isSpaceChar).reverse.dropWhile isSpaceChar).reverse).map Char.toUpper

/-- The `errors` list built by `QueryValidator.validate` (query_analyzer.py
lines 44-60): one message per matching dangerous pattern, in source order,
then the SELECT/WITH-shape error when the stripped upper-cased query starts
with neither `SELECT` nor `WITH`.  (The `warnings` list is independent of the
errors and is not needed by any claim, so it is not modelled.) -/
def QueryValidator.validateErrors (query : String) : List String :=
  (DANGEROUS_PATTERNS.filterMap fun pm =>
    if reSearch pm.1 query then some pm.2 else none) ++
  (let cleaned := pyStripUpper query
   if !("SELECT".toList.isPrefixOf cleaned) && !("WITH".toList.isPrefixOf cleaned) then
     ["Only SELECT queries and CTEs are supported for analysis"]
   else [])

/-- `is_valid` from `QueryValidator.validate`: no errors. -/
def QueryValidator.isValid (query : String) : Bool :=
  (QueryValidator.validateErrors query).isEmpty

/-- C7: the claim says `validate` flags the UPDATE hard error only for UPDATE
statements without a WHERE clause.  The code does not: in the source pattern
`\bUPDATE\s+\w+\s+SET\s+.*(?:;|$)(?!\s*WHERE)` the negative lookahead sits
after the end anchor, where it is vacuously satisfied at the end of the
query, so `.*` can swallow the WHERE clause and the pattern matches every
`UPDATE ... SET ...` statement.  Evaluating the embedded validator: an UPDATE
with a WHERE clause still receives the error (contradicting the claim and the
error message's own wording), and an UPDATE without WHERE receives it as
well. -/
theorem C7_update_with_where_still_flagged :
    "UPDATE without WHERE clause is dangerous" ∈
      QueryValidator.validateErrors "UPDATE users SET name = 1 WHERE id = 2" ∧
    "UPDATE without WHERE clause is dangerous" ∈
      QueryValidator.validateErrors "UPDATE users SET name = 1" := by
  constructor <;> decide

/-! ### AI response normalization (`gemini_client.py`, `AIClient._parse_response`)

`_parse_response` receives the provider's text, strips code fences, and runs
`json.loads`; the claims concern what happens from the parsed JSON value on
(lines 394-410), so the embedding starts from a JSON value.  Python dict
access `rec.get(key, default)` returns the stored value whenever the key is
present (even when that value is JSON `null`), and raises `AttributeError`
when `rec` is not a dict. -/

/-- A parsed JSON value (numbers as rationals). -/
inductive Json where
  | null
  | bool (b : Bool)
  | num (q : ℚ)
  | str (s : String)
  | arr (elems : List Json)
  | obj (fields : List (String × Json))

/-- Dictionary lookup: value of the first field named `k`. -/
def Json.lookup (fields : List (String × Json)) (k : String) : Option Json :=
  match fields with
  | [] => none
  | (k', v) :: rest => if k' == k then some v else Json.lookup rest k

/-- One normalized recommendation as built by `_parse_response`
(gemini_client.py lines 400-408); field values are the raw JSON values. -/
structure RecNorm where
  rtype : Json
  description : Json
  optimized_query : Json
  suggested_indexes : Json
  expected_improvement : Json
  explanation : Json
  rank : Nat

/-- The normalized dict built for one raw element `rec` at 0-based index `i`
(gemini_client.py lines 400-408): `rec.get(key, default)` for each field. -/
def normOne (q : String) (i : Nat) (fs : List (String × Json)) : RecNorm :=
  { rtype := (Json.lookup fs "type").getD (.str "rewrite"),
    description := (Json.lookup fs "description").getD (.str "No description provided"),
    optimized_query := (Json.lookup fs "optimized_query").getD (.str q),
    suggested_indexes := (Json.lookup fs "suggested_indexes").getD (.arr []),
    expected_improvement := (Json.lookup fs "expected_improvement").getD (.str "medium"),
    explanation := (Json.lookup fs "explanation").getD (.str ""),
    rank := i + 1 }

/-- The `for i, rec in enumerate(recommendations[:3])` loop of
`_parse_response`: normalize each element in order, raising `AttributeError`
at the first element that is not a dict (`rec.get` on a non-dict). -/
def normalizeRecs (q : String) : Nat → List Json → Except String (List RecNorm)
  | _, [] => .ok []
  | i, .obj fs :: rs => (normalizeRecs q (i + 1) rs).map (fun vs => normOne q i fs :: vs)
  | _, _ :: _ => .error "AttributeError: rec.get called on a non-dict element"

/-- `AIClient._parse_response` from the parsed JSON value on
(gemini_client.py lines 394-410): a non-array top level raises
`AIClientError('Expected a list of recommendations')`; otherwise at most the
first three elements are normalized. -/
def AIClient.parse_response (j : Json) (original_query : String) :
    Except String (List RecNorm) :=
  match j with
  | .arr recs => normalizeRecs original_query 0 (recs.take 3)
  | _ => .error "Expected a list of recommendations"

/-- `v` is the normalization of the raw array element `raw` at position `i`:
`raw` is a dict, every output field is the raw field when present and the
documented default when absent, and `rank` is the 1-based position. -/
def normalizedFrom (q : String) (i : Nat) (raw : Json) (v : RecNorm) : Prop :=
  ∃ fs, raw = .obj fs ∧
    v.rtype = (Json.lookup fs "type").getD (.str "rewrite") ∧
    v.description = (Json.lookup fs "description").getD (.str "No description provided") ∧
    v.optimized_query = (Json.lookup fs "optimized_query").getD (.str q) ∧
    v.suggested_indexes = (Json.lookup fs "suggested_indexes").getD (.arr []) ∧
    v.expected_improvement = (Json.lookup fs "expected_improvement").getD (.str "medium") ∧
    v.explanation = (Json.lookup fs "explanation").getD (.str "") ∧
    v.rank = i + 1

/-- `normalizeRecs` returns one output per input, each related to its input
by `normalizedFrom` at the running index. -/
theorem normalizeRecs_spec (q : String) :
    ∀ (i : Nat) (l : List Json) (out : List RecNorm),
      normalizeRecs q i l = .ok out →
      out.length = l.length ∧
      ∀ (k : Nat) (hk : k < out.length) (hl : k < l.length),
        normalizedFrom q (i + k) (l.get ⟨k, hl⟩) (out.get ⟨k, hk⟩) := by
  intro i l
  induction l generalizing i with
  | nil =>
    intro out h
    simp only [normalizeRecs] at h
    cases h
    exact ⟨rfl, fun k hk => by simp at hk⟩
  | cons r rs ih =>
    intro out h
    cases r with
    | obj fs =>
      simp only [normalizeRecs] at h
      cases hrec : normalizeRecs q (i + 1) rs with
      | ok vs =>
        rw [hrec] at h
        simp only [Except.map] at h
        cases h
        obtain ⟨hlen, hrel⟩ := ih (i + 1) vs hrec
        refine ⟨by simp [hlen], ?_⟩
        intro k hk hl
        match k with
        | 0 => exact ⟨fs, rfl, rfl, rfl, rfl, rfl, rfl, rfl, rfl⟩
        | k + 1 =>
          have hk' : k < vs.length := by simpa using hk
          have hl' : k < rs.length := by simpa using hl
          have := hrel k hk' hl'
          simpa [Nat.add_assoc, Nat.add_comm 1 k] using this
      | error e =>
        rw [hrec] at h
        simp only [Except.map] at h
        cases h
    | null => simp [normalizeRecs] at h
    | bool b => simp [normalizeRecs] at h
    | num n => simp [normalizeRecs] at h
    | str s => simp [normalizeRecs] at h
    | arr es => simp [normalizeRecs] at h

/-- C9: whenever `_parse_response` succeeds on a JSON array, it returns one
normalized recommendation per retained element (at most three), and each has
every required field populated: absent fields get their documented defaults
(`type` → `'rewrite'`, `expected_improvement` → `'medium'`,
`optimized_query` → the original query, `suggested_indexes` → `[]`), fields
present in the raw response are preserved unchanged, and `rank` is the
1-based position. -/
theorem C9_parse_response_normalization (l : List Json) (q : String)
    (out : List RecNorm) (h : AIClient.parse_response (.arr l) q = .ok out) :
    out.length = min l.length 3 ∧
    ∀ (k : Nat) (hk : k < out.length) (hl : k < l.length),
      normalizedFrom q k (l.get ⟨k, hl⟩) (out.get ⟨k, hk⟩) := by
  simp only [AIClient.parse_response] at h
  obtain ⟨hlen, hrel⟩ := normalizeRecs_spec q 0 (l.take 3) out h
  have htk : (l.take 3).length = min 3 l.length := List.length_take 3 l
  constructor
  · rw [hlen, htk, Nat.min_comm]
  · intro k hk hl
    have hkt : k < (l.take 3).length := by rw [← hlen]; exact hk
    have := hrel k hk hkt
    have hget : (l.take 3).get ⟨k, hkt⟩ = l.get ⟨k, hl⟩ := by
      simp [List.getElem_take']
    rw [hget] at this
    simpa using this

/-- C9 witness: a concrete two-element response where the first element
carries explicit fields (preserved) and the second is empty (defaults). -/
theorem C9_parse_response_normalization_witness :
    AIClient.parse_response
        (.arr [.obj [("type", .str "index"), ("description", .str "d")], .obj []]) "Q" =
      .ok [normOne "Q" 0 [("type", .str "index"), ("description", .str "d")],
           normOne "Q" 1 []] ∧
    [normOne "Q" 0 [("type", .str "index"), ("description", .str "d")],
     normOne "Q" 1 []].length = min 2 3 := by
  have h : AIClient.parse_response
      (.arr [.obj [("type", .str "index"), ("description", .str "d")], .obj []]) "Q" =
      .ok [normOne "Q" 0 [("type", .str "index"), ("description", .str "d")],
           normOne "Q" 1 []] := rfl
  exact ⟨h, (C9_parse_response_normalization _ "Q" _ h).1⟩

/-- C10 counterexample: a valid JSON array with fewer than three elements
does not always normalize without raising — `rec.get` on a non-dict element
(here the string `"x"`) raises an `AttributeError`, so nothing is returned. -/
theorem C10_counterexample_nondict_element :
    AIClient.parse_response (.arr [.str "x"]) "q" =
      .error "AttributeError: rec.get called on a non-dict element" := rfl

/-- `normalizeRecs` succeeds on any list of dict elements, one output per
input. -/
theorem normalizeRecs_ok_of_objs (q : String) :
    ∀ (i : Nat) (l : List Json), (∀ j ∈ l, ∃ fs, j = Json.obj fs) →
      ∃ out, normalizeRecs q i l = .ok out ∧ out.length = l.length := by
  intro i l
  induction l generalizing i with
  | nil => exact fun _ => ⟨[], rfl, rfl⟩
  | cons r rs ih =>
    intro hobj
    obtain ⟨fs, hfs⟩ := hobj r (List.mem_cons_self r rs)
    obtain ⟨out, hout, hlen⟩ := ih (i + 1) (fun j hj => hobj j (List.mem_cons_of_mem r hj))
    subst hfs
    exact ⟨normOne q i fs :: out, by simp [normalizeRecs, hout, Except.map],
      by simp [hlen]⟩

/-- C10 (amended): if a provider response parses as a valid JSON array of
fewer than three elements **each of which is a JSON object**, the normalizer
returns exactly that many normalized recommendations without raising (no
minimum count of three is enforced); a non-array top-level shape raises the
`'Expected a list of recommendations'` parse error; and (per the
counterexample) an array containing a non-object element raises an
`AttributeError` instead of returning. -/
theorem C10_parse_response_short_arrays :
    (∀ (l : List Json) (q : String), l.length < 3 →
        (∀ j ∈ l, ∃ fs, j = Json.obj fs) →
        ∃ out, AIClient.parse_response (.arr l) q = .ok out ∧ out.length = l.length) ∧
    (∀ (j : Json) (q : String), (∀ l, j ≠ .arr l) →
        AIClient.parse_response j q = .error "Expected a list of recommendations") := by
  constructor
  · intro l q hlen hobj
    have htake : l.take 3 = l := List.take_of_length_le (Nat.le_of_lt hlen)
    obtain ⟨out, hout, holen⟩ := normalizeRecs_ok_of_objs q 0 l hobj
    exact ⟨out, by simp only [AIClient.parse_response, htake, hout], holen⟩
  · intro j q hne
    cases j with
    | arr l => exact absurd rfl (hne l)
    | null => rfl
    | bool b => rfl
    | num n => rfl
    | str s => rfl
    | obj fs => rfl

/-- C10 witness: a single-object array normalizes to exactly one
recommendation, and a non-array (JSON null) raises the parse error. -/
theorem C10_parse_response_short_arrays_witness :
    (∃ out, AIClient.parse_response (.arr [Json.obj []]) "q" = .ok out ∧
      out.length = 1) ∧
    AIClient.parse_response Json.null "q" = .error "Expected a list of recommendations" :=
  ⟨C10_parse_response_short_arrays.1 [Json.obj []] "q" (by decide)
      (fun j hj => ⟨[], by rw [List.mem_singleton] at hj; exact hj⟩),
   C10_parse_response_short_arrays.2 Json.null "q" (fun l h => Json.noConfusion h)⟩

/-! ### Provider fallback (`gemini_client.py`,
`AIClient.get_optimization_recommendations`, lines 252-294)

Each configured provider is modelled by its name, display name, model name
and the outcome of `provider['init']()` followed by `provider['call']`: a
raised exception (network error, quota, invalid JSON text) or a parsed JSON
value that is then normalized by `_parse_response`.  The loop catches any
exception, remembers it as `last_error` and falls through to the next
provider; after the loop it raises
`AIClientError(f"All AI providers failed. Last error: {last_error}")`. -/

/-- One configured provider and the behaviour of calling it. -/
structure Provider where
  name : String
  displayName : String
  modelName : String
  response : Except String Json

/-- `PROVIDER_INFO.get(name, {}).get('color', '#666')` (gemini_client.py
lines 162-166, 269). -/
def providerColor (n : String) : String :=
  if n == "gemini" then "#4285F4"
  else if n == "deepseek" then "#00D4AA"
  else if n == "groq" then "#F55036"
  else "#666"

/-- The `provider_info` dict returned on success (gemini_client.py
lines 265-270). -/
structure ProviderInfo where
  provider : String
  provider_name : String
  model : String
  color : String

/-- `provider['init']()` + `provider['call'](prompt, query)`: either a raised
exception or the normalized recommendations parsed from the provider's JSON
response. -/
def provResult (query : String) (p : Provider) : Except String (List RecNorm) :=
  match p.response with
  | .error e => .error e
  | .ok j => AIClient.parse_response j query

/-- The success metadata for a provider. -/
def mkProviderInfo (p : Provider) : ProviderInfo :=
  ⟨p.name, p.displayName, p.modelName, providerColor p.name⟩

/-- Python string interpolation of `last_error` (initially `None`). -/
def lastErrorStr : Option String → String
  | none => "None"
  | some e => e

/-- The provider loop of `get_optimization_recommendations` with the running
`last_error`; returns the call's outcome together with the names of the
providers actually tried, in order. -/
def goProviders (query : String) :
    List Provider → Option String →
    Except String (List RecNorm × ProviderInfo) × List String
  | [], lastErr =>
    (.error ("All AI providers failed. Last error: " ++ lastErrorStr lastErr), [])
  | p :: ps, _ =>
    match provResult query p with
    | .ok recs => (.ok (recs, mkProviderInfo p), [p.name])
    | .error e =>
      let r := goProviders query ps (some e)
      (r.1, p.name :: r.2)

/-- `AIClient.get_optimization_recommendations` (gemini_client.py lines
229-294) restricted to its provider-fallback behaviour: the prompt assembly
has no effect on control flow and is folded into each provider's `response`. -/
def AIClient.get_optimization_recommendations (providers : List Provider)
    (query : String) : Except String (List RecNorm × ProviderInfo) × List String :=
  goProviders query providers none

/-- When every provider in a leading segment fails and the next provider
succeeds, the loop returns that provider's parsed result and has tried
exactly the segment plus the winner, in order. -/
theorem goProviders_first_success (query : String) :
    ∀ (pre : List Provider) (p : Provider) (post : List Provider)
      (recs : List RecNorm) (le : Option String),
      (∀ q ∈ pre, ∃ e, provResult query q = .error e) →
      provResult query p = .ok recs →
      goProviders query (pre ++ p :: post) le =
        (.ok (recs, mkProviderInfo p), pre.map Provider.name ++ [p.name]) := by
  intro pre
  induction pre with
  | nil =>
    intro p post recs le _ hp
    simp [goProviders, hp]
  | cons q qs ih =>
    intro p post recs le hfail hp
    obtain ⟨e, he⟩ := hfail q (List.mem_cons_self q qs)
    have := ih p post recs (some e) (fun r hr => hfail r (List.mem_cons_of_mem q hr)) hp
    simp [goProviders, he, this]

/-- The loop ends in the terminal error exactly when every provider fails. -/
theorem goProviders_error_iff (query : String) :
    ∀ (l : List Provider) (le : Option String),
      (∃ e, (goProviders query l le).1 = .error e) ↔
        ∀ q ∈ l, ∃ e, provResult query q = .error e := by
  intro l
  induction l with
  | nil =>
    intro le
    simp [goProviders]
  | cons p ps ih =>
    intro le
    cases hp : provResult query p with
    | ok recs =>
      simp only [goProviders, hp]
      constructor
      · rintro ⟨e, he⟩; cases he
      · intro h
        obtain ⟨e, he⟩ := h p (List.mem_cons_self p ps)
        rw [hp] at he; cases he
    | error e =>
      simp only [goProviders, hp]
      rw [ih (some e)]
      constructor
      · intro h r hr
        rcases List.mem_cons.mp hr with rfl | hr
        · exact ⟨e, hp⟩
        · exact h r hr
      · intro h r hr
        exact h r (List.mem_cons_of_mem p hr)

/-- When every provider fails, the terminal error message embeds the error of
the last provider tried. -/
theorem goProviders_last_error (query : String) :
    ∀ (l : List Provider) (p : Provider) (e : String) (le : Option String),
      (∀ q ∈ l, ∃ e2, provResult query q = .error e2) →
      provResult query p = .error e →
      (goProviders query (l ++ [p]) le).1 =
        .error ("All AI providers failed. Last error: " ++ e) := by
  intro l
  induction l with
  | nil =>
    intro p e le _ hp
    simp [goProviders, hp, lastErrorStr]
  | cons q qs ih =>
    intro p e le hfail hp
    obtain ⟨e2, he2⟩ := hfail q (List.mem_cons_self q qs)
    have := ih p e (some e2) (fun r hr => hfail r (List.mem_cons_of_mem q hr)) hp
    simp [goProviders, he2, this]

/-- C6: `get_optimization_recommendations` tries the configured providers
strictly in priority order: (1) if every provider of a leading segment fails
and the next one returns a response that parses as a well-formed
recommendation array, the call returns that provider's result, having tried
exactly the segment and the winner in order; (2) the call raises the terminal
error if and only if every configured provider fails (so no partial
recommendations are ever returned alongside a failure); (3) when all fail,
the terminal error message includes the last underlying provider error. -/
theorem C6_provider_fallback :
    (∀ (pre : List Provider) (p : Provider) (post : List Provider)
       (query : String) (recs : List RecNorm),
       (∀ q ∈ pre, ∃ e, provResult query q = .error e) →
       provResult query p = .ok recs →
       AIClient.get_optimization_recommendations (pre ++ p :: post) query =
         (.ok (recs, mkProviderInfo p), pre.map Provider.name ++ [p.name])) ∧
    (∀ (providers : List Provider) (query : String),
       (∃ e, (AIClient.get_optimization_recommendations providers query).1 = .error e) ↔
         ∀ q ∈ providers, ∃ e, provResult query q = .error e) ∧
    (∀ (pre : List Provider) (p : Provider) (query : String) (e : String),
       (∀ q ∈ pre, ∃ e2, provResult query q = .error e2) →
       provResult query p = .error e →
       (AIClient.get_optimization_recommendations (pre ++ [p]) query).1 =
         .error ("All AI providers failed. Last error: " ++ e)) :=
  ⟨fun pre p post query recs hf hp =>
     goProviders_first_success query pre p post recs none hf hp,
   fun providers query => goProviders_error_iff query providers none,
   fun pre p query e hf hp => goProviders_last_error query pre p e none hf hp⟩

/-- A provider that always fails with a network-style error. -/
def failingProvider (n : String) (e : String) : Provider :=
  ⟨n, n, "m", .error e⟩

/-- A provider returning a well-formed one-element recommendation array. -/
def okProvider (n : String) : Provider :=
  ⟨n, n, "m", .ok (.arr [.obj []])⟩

/-- C6 witness: with gemini failing and deepseek returning a parseable array,
the call returns deepseek's result having tried `[gemini, deepseek]`; and
with all three providers failing, the terminal error embeds the last
provider's error. -/
theorem C6_provider_fallback_witness :
    AIClient.get_optimization_recommendations
        [failingProvider "gemini" "net down", okProvider "deepseek",
         failingProvider "groq" "quota"] "Q" =
      (.ok ([normOne "Q" 0 []], mkProviderInfo (okProvider "deepseek")),
       ["gemini", "deepseek"]) ∧
    (AIClient.get_optimization_recommendations
        [failingProvider "gemini" "net down", failingProvider "deepseek" "quota",
         failingProvider "groq" "503"] "Q").1 =
      .error ("All AI providers failed. Last error: " ++ "503") := by
  constructor
  · exact C6_provider_fallback.1 [failingProvider "gemini" "net down"]
      (okProvider "deepseek") [failingProvider "groq" "quota"] "Q" [normOne "Q" 0 []]
      (fun q hq => by
        rw [List.mem_singleton] at hq
        exact ⟨"net down", by rw [hq]; rfl⟩)
      rfl
  · exact C6_provider_fallback.2.2
      [failingProvider "gemini" "net down", failingProvider "deepseek" "quota"]
      (failingProvider "groq" "503") "Q" "503"
      (fun q hq => by
        rcases List.mem_cons.mp hq with rfl | hq
        · exact ⟨"net down", rfl⟩
        · rw [List.mem_singleton] at hq
          exact ⟨"quota", by rw [hq]; rfl⟩)
      rfl

/-! ### The optimizer (`optimizer.py`, `QueryOptimizer`)

`QueryOptimizer.optimize` tests each AI recommendation inside a
`try ... finally` block (lines 245-378) that iterates up to
`max_seq_scan_attempts` times, and `QueryOptimizer.test_recommendation`
(lines 120-196) is the standalone single-shot variant.  The embedding passes
the loop's mutable variables explicitly, threads an operation trace
(schema creation, schema drop, refinement calls) and an exception slot, and
takes the behaviour of the database gateway and the AI client from an
`OptEnv` record; database calls are modelled as fallible (`Except`) so that
the theorems also cover the raised-exception exit paths.  Table cloning and
`get_schema_table_info` results never influence control flow or the trace
and are not modelled. -/

/-- A recommendation dict as used by the optimizer loop: `none` means the key
is absent. -/
structure Recc where
  rtype : Option String := none
  description : Option String := none
  optimized_query : Option String := none
  suggested_indexes : Option (List String) := none
  expected_improvement : Option String := none
  explanation : Option String := none
  seq_scan_fix_attempt : Option Nat := none
deriving DecidableEq

/-- Python dict merge `{**a, **b}` / `a.update(b)`: keys present in `b`
override those of `a`. -/
def Recc.merge (a b : Recc) : Recc :=
  { rtype := b.rtype <|> a.rtype,
    description := b.description <|> a.description,
    optimized_query := b.optimized_query <|> a.optimized_query,
    suggested_indexes := b.suggested_indexes <|> a.suggested_indexes,
    expected_improvement := b.expected_improvement <|> a.expected_improvement,
    explanation := b.explanation <|> a.explanation,
    seq_scan_fix_attempt := b.seq_scan_fix_attempt <|> a.seq_scan_fix_attempt }

/-- The dict returned by `DBConnector.execute_explain_analyze`
(db_connector.py lines 112-134): the success dict carries plan and timings,
the failure dicts only `success` and `error`. -/
structure DbResult where
  success : Bool
  plan : Option Plan := none
  execution_time : Option ℚ := none
  planning_time : Option ℚ := none
  error : Option String := none

/-- The `test_result` dict built at optimizer.py lines 297-303: timings
defaulted to 0 via `result.get(..., 0)`, plan and error passed through. -/
structure TestRes where
  success : Bool
  execution_time : ℚ
  planning_time : ℚ
  plan : Option Plan
  error : Option String

/-- optimizer.py lines 297-303. -/
def mkTestRes (r : DbResult) : TestRes :=
  ⟨r.success, r.execution_time.getD 0, r.planning_time.getD 0, r.plan, r.error⟩

/-- One entry of `optimization_history` (optimizer.py lines 342-352); the
human-readable `reason` strings are presentation text built with float
formatting and are not modelled. -/
structure HistoryEntry where
  attempt : Nat
  rec_type : Option String
  rec_description : Option String
  rec_suggested_indexes : List String
  still_has_seq_scan : Bool
  improvement_percentage : ℚ
deriving DecidableEq

/-- `Int.fdiv`-based floor of a rational. -/
def ratFloorZ (q : ℚ) : ℤ :=
  Int.fdiv q.num q.den

/-- Python `round(x, 2)` on exact values: round half to even at two decimal
places (the source applies it to floats; the model is the exact-rational
idealization). -/
def pyRound2 (q : ℚ) : ℚ :=
  let x := q * 100
  let f := ratFloorZ x
  let frac : ℚ := x - (f : ℚ)
  let n : ℤ :=
    if frac < 1/2 then f
    else if 1/2 < frac then f + 1
    else if f % 2 = 0 then f else f + 1
  (n : ℚ) / 100

/-- The improvement computation of optimizer.py lines 314-317 (and again at
396-397): `(original - tested) / original * 100` when the baseline time is
positive, else `0`. -/
def improvementOf (original tested : ℚ) : ℚ :=
  if original > 0 then ((original - tested) / original) * 100 else 0

/-- The iteration decision at optimizer.py line 325: refine again exactly
when `(needs_seq_scan_fix or needs_more_improvement) and
attempt < max_seq_scan_attempts`, where `needs_more_improvement` is
`improvement < 50`. -/
def iterationContinues (needsFix : Bool) (improvement : ℚ) (attempt maxA : Nat) : Bool :=
  (needsFix || decide (improvement < 50)) && decide (attempt < maxA)

/-- Externally visible operations of one recommendation test, in order. -/
inductive Op where
  | createSchema (name : String)
  | dropSchema (name : String)
  | geminiCall (attempt : Nat)
deriving DecidableEq

/-- Behaviour of the collaborators during one recommendation's test:
the generated sandbox schema name, the result of `create_temp_schema`
(an exception or a boolean), the per-attempt result of
`create_index_on_temp`, the per-attempt result of `execute_explain_analyze`
(an exception or the result dict), and the per-attempt outcome of
`gemini.get_seq_scan_fix` (a raised exception or the new recommendation). -/
structure OptEnv where
  schemaNameGen : String
  createTempSchema : String → Except String Bool
  createIndexOnTemp : Nat → String → Bool
  explain : Nat → String → Except String DbResult
  geminiFix : Nat → Except String Recc

/-- The mutable variables of the per-recommendation loop (optimizer.py
lines 238-243): attempt counter, current recommendation, attempt history,
sandbox schema name (None until created), indexes created so far, final
optimized query, and the last `test_result` (None until first assigned). -/
structure LoopVars where
  attempt : Nat
  currentRec : Recc
  history : List HistoryEntry
  schemaName : Option String
  allIndexes : List String
  finalQuery : String
  testResult : Option TestRes

/-- The query rewriting of optimizer.py lines 276-293 for one table name:
schema-qualified names have their schema replaced, bare names are replaced
in the three bounded forms `" t "`, `" t\n"`, `" t;"`. -/
def rewriteTableRef (schemaName : String) (q : String) (table : String) : String :=
  if table.contains '.' then
    let parts := table.splitOn "."
    let originalSchema := parts.headD ""
    let tableName := String.intercalate "." (parts.drop 1)
    q.replace (originalSchema ++ "." ++ tableName) (schemaName ++ "." ++ tableName)
  else
    ((q.replace (" " ++ table ++ " ") (" " ++ schemaName ++ "." ++ table ++ " ")).replace
        (" " ++ table ++ "\n") (" " ++ schemaName ++ "." ++ table ++ "\n")).replace
      (" " ++ table ++ ";") (" " ++ schemaName ++ "." ++ table ++ ";")

/-- The `for table in tables` rewriting loop (optimizer.py lines 276-293). -/
def rewriteQuery (schemaName : String) (q : String) (tables : List String) : String :=
  tables.foldl (rewriteTableRef schemaName) q

/-- Result of one loop iteration: stop (with the exception slot) or go
around again. -/
inductive StepOut where
  | done (v : LoopVars) (exc : Option String) (tr : List Op)
  | next (v : LoopVars) (tr : List Op)

/-- The variables after a step. -/
def StepOut.vars : StepOut → LoopVars
  | .done v _ _ => v
  | .next v _ => v

/-- The trace after a step. -/
def StepOut.trace : StepOut → List Op
  | .done _ _ tr => tr
  | .next _ tr => tr

/-- The body of one iteration from index creation on (optimizer.py lines
263-374), once the sandbox schema `s` exists: create the not-yet-applied
suggested indexes, track the final optimized query, rewrite the query to the
sandbox schema, run EXPLAIN ANALYZE, and either stop (test failure, goals
met, max attempts, refinement failure) or merge the refinement and continue. -/
def afterSchema (env : OptEnv) (query : String) (tables : List String)
    (baselineTime : ℚ) (origHas : Bool) (maxA : Nat)
    (v : LoopVars) (s : String) (tr : List Op) : StepOut :=
  let attempt := v.attempt
  let allIdx := (v.currentRec.suggested_indexes.getD []).foldl
    (fun acc stmt =>
      if stmt ∈ acc then acc
      else if env.createIndexOnTemp attempt stmt then acc ++ [stmt] else acc)
    v.allIndexes
  let finalQ := v.currentRec.optimized_query.getD v.finalQuery
  let testQuery := rewriteQuery s (v.currentRec.optimized_query.getD query) tables
  let v2 := { v with allIndexes := allIdx, finalQuery := finalQ }
  match env.explain attempt testQuery with
  | .error e => .done v2 (some e) tr
  | .ok r =>
    let tRes := mkTestRes r
    let v3 := { v2 with testResult := some tRes }
    if tRes.success = false then .done v3 none tr
    else
      match tRes.plan with
      | none => .done v3 (some "AttributeError: NoneType has no attribute get") tr
      | some tplan =>
        let stillHas := ExecutionPlanAnalyzer.has_seq_scan tplan
        let improvement := improvementOf baselineTime tRes.execution_time
        let needsFix := origHas && stillHas
        if iterationContinues needsFix improvement attempt maxA then
          let hist := v3.history ++
            [⟨attempt, v3.currentRec.rtype, v3.currentRec.description,
              v3.currentRec.suggested_indexes.getD [], stillHas, pyRound2 improvement⟩]
          match env.geminiFix attempt with
          | .error _ => .done { v3 with history := hist } none (tr ++ [.geminiCall attempt])
          | .ok newRec =>
            .next
              { v3 with
                history := hist,
                currentRec :=
                  { v3.currentRec.merge newRec with seq_scan_fix_attempt := some attempt } }
              (tr ++ [.geminiCall attempt])
        else .done v3 none tr

/-- One full iteration of the `while` body (optimizer.py lines 246-374):
increment the attempt counter; on the first iteration generate the schema
name (assigned before the creation call), create the sandbox schema
(creation failure breaks the loop, a raised exception propagates), then run
`afterSchema`. -/
def loopStep (env : OptEnv) (query : String) (tables : List String)
    (baselineTime : ℚ) (origHas : Bool) (maxA : Nat)
    (v : LoopVars) (tr : List Op) : StepOut :=
  let attempt := v.attempt + 1
  match v.schemaName with
  | none =>
    let s := env.schemaNameGen
    let v1 := { v with attempt := attempt, schemaName := some s }
    match env.createTempSchema s with
    | .error e => .done v1 (some e) tr
    | .ok false => .done v1 none tr
    | .ok true =>
      afterSchema env query tables baselineTime origHas maxA v1 s
        (tr ++ [.createSchema s])
  | some s =>
    afterSchema env query tables baselineTime origHas maxA
      { v with attempt := attempt } s tr

/-- The `while attempt < max_seq_scan_attempts` loop, driven by a fuel that
at the top-level call equals `max_seq_scan_attempts` (the attempt counter
increases by one per iteration, so the fuel never runs out before the
condition fails). -/
def loopGo (env : OptEnv) (query : String) (tables : List String)
    (baselineTime : ℚ) (origHas : Bool) (maxA : Nat)
    (v : LoopVars) (tr : List Op) : Nat → LoopVars × Option String × List Op
  | 0 => (v, none, tr)
  | fuel + 1 =>
    if v.attempt < maxA then
      match loopStep env query tables baselineTime origHas maxA v tr with
      | .done v' exc tr' => (v', exc, tr')
      | .next v' tr' => loopGo env query tables baselineTime origHas maxA v' tr' fuel
    else (v, none, tr)

/-- The final annotated recommendation (optimizer.py lines 380-399). -/
structure RecOut where
  recc : Recc
  test_result : TestRes
  optimization_attempts : Nat
  optimization_history : List HistoryEntry
  seq_scan_eliminated : Bool
  all_indexes_applied : List String
  final_optimized_query : String
  original_query : String
  query_was_rewritten : Bool
  improvement_percentage : Option ℚ
  tested_execution_time : Option ℚ

/-- The post-loop annotation (optimizer.py lines 380-399).  `test_result` is
a `NameError` when the loop never reached the EXPLAIN call;
`seq_scan_eliminated` is `original_has_seq_scan and not
has_seq_scan(test_result.get('plan', {}))`, where Python's `and`
short-circuits on a false baseline flag and `has_seq_scan(None)` raises;
the improvement fields are set only when the test succeeded and the baseline
time is positive. -/
def annotateRec (query : String) (baselineTime : ℚ) (origHas : Bool)
    (rec : Recc) (v : LoopVars) : Except String RecOut :=
  match v.testResult with
  | none => .error "NameError: test_result is not defined"
  | some tr0 =>
    let elimE : Except String Bool :=
      if origHas then
        match tr0.plan with
        | none => .error "AttributeError: NoneType has no attribute get"
        | some p => .ok (!(ExecutionPlanAnalyzer.has_seq_scan p))
      else .ok false
    match elimE with
    | .error e => .error e
    | .ok elim =>
      .ok { recc := rec.merge v.currentRec,
            test_result := tr0,
            optimization_attempts := v.attempt,
            optimization_history := v.history,
            seq_scan_eliminated := elim,
            all_indexes_applied := v.allIndexes,
            final_optimized_query := v.finalQuery,
            original_query := query,
            query_was_rewritten := v.finalQuery != query,
            improvement_percentage :=
              if tr0.success && decide (baselineTime > 0) then
                some (pyRound2 (improvementOf baselineTime tr0.execution_time))
              else none,
            tested_execution_time :=
              if tr0.success && decide (baselineTime > 0) then
                some tr0.execution_time
              else none }

/-- The loop-variable initialization of optimizer.py lines 238-243. -/
def initVars (query : String) (rec : Recc) : LoopVars :=
  ⟨0, rec, [], none, [], rec.optimized_query.getD query, none⟩

/-- One recommendation's test-and-refine block inside
`QueryOptimizer.optimize` (optimizer.py lines 238-399): run the bounded
loop under the `try`, then — the `finally` — drop the sandbox schema
whenever one was named, and finally annotate the recommendation (an
exception from the loop propagates after the cleanup). -/
def QueryOptimizer.optimizeTestRec (env : OptEnv) (query : String)
    (tables : List String) (baselineTime : ℚ) (origHas : Bool) (maxA : Nat)
    (rec : Recc) : Except String RecOut × List Op :=
  let r := loopGo env query tables baselineTime origHas maxA (initVars query rec) [] maxA
  let tr := r.2.2 ++
    (match r.1.schemaName with
     | some s => [Op.dropSchema s]
     | none => [])
  match r.2.1 with
  | some e => (.error e, tr)
  | none => (annotateRec query baselineTime origHas rec r.1, tr)

/-- The dict returned by the standalone
`QueryOptimizer.test_recommendation` (optimizer.py lines 120-196). -/
structure TestRecResult where
  success : Bool
  execution_time : Option ℚ
  planning_time : Option ℚ
  plan : Option Plan
  error : Option String

/-- `QueryOptimizer.test_recommendation` (optimizer.py lines 120-196):
generate a schema name, and under `try/except/finally` create the schema
(failure returns an error dict), clone tables and create indexes (results
logged only), rewrite the query using each table's last name component, and
run EXPLAIN ANALYZE; any exception is caught into an error dict, and the
`finally` always drops the schema. -/
def QueryOptimizer.test_recommendation (env : OptEnv) (original_query : String)
    (recommendation : Recc) (tables : List String) :
    TestRecResult × List Op :=
  let s := env.schemaNameGen
  let body : TestRecResult × List Op :=
    match env.createTempSchema s with
    | .error e => (⟨false, none, none, none, some e⟩, [])
    | .ok false => (⟨false, none, none, none, some "Failed to create temp schema"⟩, [])
    | .ok true =>
      let testQuery := tables.foldl
        (fun q t =>
          let tn := (t.splitOn ".").getLastD t
          ((q.replace (" " ++ tn ++ " ") (" " ++ s ++ "." ++ tn ++ " ")).replace
              (" " ++ tn ++ "\n") (" " ++ s ++ "." ++ tn ++ "\n")).replace
            (" " ++ tn ++ ";") (" " ++ s ++ "." ++ tn ++ ";"))
        (recommendation.optimized_query.getD original_query)
      match env.explain 1 testQuery with
      | .error e => (⟨false, none, none, none, some e⟩, [Op.createSchema s])
      | .ok r =>
        (⟨r.success, some (r.execution_time.getD 0), some (r.planning_time.getD 0),
          r.plan, r.error⟩, [Op.createSchema s])
  (body.1, body.2 ++ [Op.dropSchema s])

/-- `afterSchema` never changes the schema name. -/
theorem afterSchema_schemaName (env : OptEnv) (q : String) (tb : List String)
    (bt : ℚ) (oh : Bool) (mx : Nat) (v : LoopVars) (s : String) (tr : List Op) :
    (afterSchema env q tb bt oh mx v s tr).vars.schemaName = v.schemaName := by
  simp only [afterSchema]
  split
  · rfl
  · split
    · rfl
    · split
      · rfl
      · split
        · split
          · rfl
          · rfl
        · rfl

/-- `afterSchema` only ever appends refinement-call operations to the trace. -/
theorem afterSchema_trace_mem (env : OptEnv) (q : String) (tb : List String)
    (bt : ℚ) (oh : Bool) (mx : Nat) (v : LoopVars) (s : String) (tr : List Op)
    (x : Op) (hx : x ∈ (afterSchema env q tb bt oh mx v s tr).trace) :
    x ∈ tr ∨ ∃ a, x = Op.geminiCall a := by
  simp only [afterSchema] at hx
  split at hx
  · exact Or.inl hx
  · split at hx
    · exact Or.inl hx
    · split at hx
      · exact Or.inl hx
      · split at hx
        · split at hx
          all_goals
            rcases List.mem_append.mp hx with h | h
            · exact Or.inl h
            · exact Or.inr ⟨_, by simpa using h⟩
        · exact Or.inl hx

/-- A schema name, once set, survives a loop step. -/
theorem loopStep_schemaName_mono (env : OptEnv) (q : String) (tb : List String)
    (bt : ℚ) (oh : Bool) (mx : Nat) (v : LoopVars) (tr : List Op) (s : String)
    (h : v.schemaName = some s) :
    (loopStep env q tb bt oh mx v tr).vars.schemaName = some s := by
  simp only [loopStep, h]
  rw [afterSchema_schemaName]

/-- Every schema-creation operation a loop step adds to the trace names the
schema recorded in the step's resulting state. -/
theorem loopStep_create_mem (env : OptEnv) (q : String) (tb : List String)
    (bt : ℚ) (oh : Bool) (mx : Nat) (v : LoopVars) (tr : List Op) (s : String)
    (hx : Op.createSchema s ∈ (loopStep env q tb bt oh mx v tr).trace) :
    Op.createSchema s ∈ tr ∨
      (loopStep env q tb bt oh mx v tr).vars.schemaName = some s := by
  cases hv : v.schemaName with
  | some s0 =>
    simp only [loopStep, hv] at hx
    rcases afterSchema_trace_mem env q tb bt oh mx _ s0 tr _ hx with h | ⟨a, ha⟩
    · exact Or.inl h
    · cases ha
  | none =>
    simp only [loopStep, hv] at hx ⊢
    cases hc : env.createTempSchema env.schemaNameGen with
    | error e => simp only [hc] at hx; exact Or.inl hx
    | ok b =>
      cases b with
      | false => simp only [hc] at hx; exact Or.inl hx
      | true =>
        simp only [hc] at hx ⊢
        rcases afterSchema_trace_mem env q tb bt oh mx _ _ _ _ hx with h | ⟨a, ha⟩
        · rcases List.mem_append.mp h with h2 | h2
          · exact Or.inl h2
          · rw [List.mem_singleton] at h2
            injection h2 with h3
            subst h3
            refine Or.inr ?_
            rw [afterSchema_schemaName]
        · cases ha

/-- A schema name, once set, survives the whole loop. -/
theorem loopGo_schemaName_mono (env : OptEnv) (q : String) (tb : List String)
    (bt : ℚ) (oh : Bool) (mx : Nat) :
    ∀ (fuel : Nat) (v : LoopVars) (tr : List Op) (s : String),
      v.schemaName = some s →
      (loopGo env q tb bt oh mx v tr fuel).1.schemaName = some s := by
  intro fuel
  induction fuel with
  | zero =>
    intro v tr s h
    simpa [loopGo] using h
  | succ n ih =>
    intro v tr s h
    simp only [loopGo]
    split
    · cases hstep : loopStep env q tb bt oh mx v tr with
      | done v' exc tr' =>
        have hm := loopStep_schemaName_mono env q tb bt oh mx v tr s h
        rw [hstep] at hm
        simpa using hm
      | next v' tr' =>
        have hm := loopStep_schemaName_mono env q tb bt oh mx v tr s h
        rw [hstep] at hm
        exact ih v' tr' s (by simpa using hm)
    · simpa using h

/-- Every schema-creation operation in the loop's trace either was already in
the incoming trace or names the schema recorded in the loop's final state. -/
theorem loopGo_create_mem (env : OptEnv) (q : String) (tb : List String)
    (bt : ℚ) (oh : Bool) (mx : Nat) :
    ∀ (fuel : Nat) (v : LoopVars) (tr : List Op) (s : String),
      Op.createSchema s ∈ (loopGo env q tb bt oh mx v tr fuel).2.2 →
      Op.createSchema s ∈ tr ∨
        (loopGo env q tb bt oh mx v tr fuel).1.schemaName = some s := by
  intro fuel
  induction fuel with
  | zero =>
    intro v tr s hx
    exact Or.inl (by simpa [loopGo] using hx)
  | succ n ih =>
    intro v tr s hx
    simp only [loopGo] at hx ⊢
    split at hx
    · rename_i hcond
      rw [if_pos hcond]
      cases hstep : loopStep env q tb bt oh mx v tr with
      | done v' exc tr' =>
        rw [hstep] at hx
        have := loopStep_create_mem env q tb bt oh mx v tr s (by rw [hstep]; simpa using hx)
        rw [hstep] at this
        simpa using this
      | next v' tr' =>
        rw [hstep] at hx
        have hx' := ih v' tr' s (by simpa using hx)
        rcases hx' with hin | hname
        · have := loopStep_create_mem env q tb bt oh mx v tr s (by rw [hstep]; simpa using hin)
          rcases this with hin2 | hname2
          · exact Or.inl hin2
          · rw [hstep] at hname2
            refine Or.inr ?_
            simp only []
            exact loopGo_schemaName_mono env q tb bt oh mx n v' tr' s (by simpa using hname2)
        · exact Or.inr (by simpa using hname)
    · rename_i hcond
      rw [if_neg hcond]
      exact Or.inl (by simpa using hx)


/-- The trace of one recommendation test is the loop trace followed by the
`finally` drop of the recorded schema (on the exception path too). -/
theorem optimizeTestRec_trace (env : OptEnv) (query : String)
    (tables : List String) (bt : ℚ) (origHas : Bool) (mx : Nat) (rec : Recc) :
    (QueryOptimizer.optimizeTestRec env query tables bt origHas mx rec).2 =
      (loopGo env query tables bt origHas mx (initVars query rec) [] mx).2.2 ++
        (match (loopGo env query tables bt origHas mx (initVars query rec) [] mx).1.schemaName with
         | some s' => [Op.dropSchema s']
         | none => ([] : List Op)) := by
  simp only [QueryOptimizer.optimizeTestRec]
  cases (loopGo env query tables bt origHas mx (initVars query rec) [] mx).2.1 <;> rfl

/-- C1: every sandbox schema created while testing a recommendation is
dropped before control returns, on every exit path — loop break on creation
or test failure, goals met, attempt exhaustion, refinement failure, and any
exception raised by a collaborator (the exception propagates only after the
`finally` has dropped the schema).  The first conjunct covers the
test-and-refine block of `QueryOptimizer.optimize`, the second the
standalone `QueryOptimizer.test_recommendation`; in both, any
`createSchema s` in the operation trace is matched by a `dropSchema s`. -/
theorem C1_sandbox_schema_always_dropped :
    (∀ (env : OptEnv) (query : String) (tables : List String) (bt : ℚ)
       (origHas : Bool) (mx : Nat) (rec : Recc) (s : String),
       Op.createSchema s ∈
         (QueryOptimizer.optimizeTestRec env query tables bt origHas mx rec).2 →
       Op.dropSchema s ∈
         (QueryOptimizer.optimizeTestRec env query tables bt origHas mx rec).2) ∧
    (∀ (env : OptEnv) (oq : String) (rec : Recc) (tables : List String) (s : String),
       Op.createSchema s ∈ (QueryOptimizer.test_recommendation env oq rec tables).2 →
       Op.dropSchema s ∈ (QueryOptimizer.test_recommendation env oq rec tables).2) := by
  constructor
  · intro env query tables bt origHas mx rec s hx
    rw [optimizeTestRec_trace] at hx ⊢
    rcases List.mem_append.mp hx with h | h
    · rcases loopGo_create_mem env query tables bt origHas mx mx
          (initVars query rec) [] s h with h2 | h2
      · exact absurd h2 (List.not_mem_nil _)
      · refine List.mem_append.mpr (Or.inr ?_)
        rw [h2]
        exact List.mem_singleton.mpr rfl
    · exfalso
      revert h
      cases (loopGo env query tables bt origHas mx (initVars query rec) [] mx).1.schemaName with
      | none => exact fun h => absurd h (List.not_mem_nil _)
      | some s' =>
        intro h
        rw [List.mem_singleton] at h
        cases h
  · intro env oq rec tables s hx
    simp only [QueryOptimizer.test_recommendation] at hx ⊢
    cases hc : env.createTempSchema env.schemaNameGen with
    | error e =>
      simp only [hc] at hx
      exact absurd hx (by simp)
    | ok b =>
      cases b with
      | false =>
        simp only [hc] at hx
        exact absurd hx (by simp)
      | true =>
        simp only [hc] at hx ⊢
        rcases List.mem_append.mp hx with h | h
        · revert h
          cases env.explain 1 (tables.foldl
              (fun q t =>
                let tn := (t.splitOn ".").getLastD t
                ((q.replace (" " ++ tn ++ " ")
                      (" " ++ env.schemaNameGen ++ "." ++ tn ++ " ")).replace
                    (" " ++ tn ++ "\n")
                    (" " ++ env.schemaNameGen ++ "." ++ tn ++ "\n")).replace
                  (" " ++ tn ++ ";") (" " ++ env.schemaNameGen ++ "." ++ tn ++ ";"))
              (rec.optimized_query.getD oq)) with
          | error e =>
            intro h
            rw [List.mem_singleton] at h
            injection h with h2
            subst h2
            simp
          | ok r =>
            intro h
            rw [List.mem_singleton] at h
            injection h with h2
            subst h2
            simp
        · rw [List.mem_singleton] at h
          cases h

/-- When the sandbox schema is created, the first EXPLAIN succeeds with a
plan, and the iteration decision says stop, the recommendation test returns
after exactly one attempt: the annotation of the first attempt's state, and
a trace of exactly the schema creation and the `finally` drop. -/
theorem optimizeTestRec_first_attempt (env : OptEnv) (query : String)
    (tables : List String) (bt : ℚ) (origHas : Bool) (mx : Nat) (rec : Recc)
    (r : DbResult) (p : Plan)
    (hmx : 0 < mx)
    (hcreate : env.createTempSchema env.schemaNameGen = .ok true)
    (hexplain : ∀ tq, env.explain 1 tq = .ok r)
    (hsucc : r.success = true)
    (hplan : r.plan = some p)
    (hstop : iterationContinues (origHas && ExecutionPlanAnalyzer.has_seq_scan p)
        (improvementOf bt (r.execution_time.getD 0)) 1 mx = false) :
    QueryOptimizer.optimizeTestRec env query tables bt origHas mx rec =
      (annotateRec query bt origHas rec
        ⟨1, rec, [], some env.schemaNameGen,
         (rec.suggested_indexes.getD []).foldl
           (fun acc stmt =>
             if stmt ∈ acc then acc
             else if env.createIndexOnTemp 1 stmt then acc ++ [stmt] else acc) [],
         rec.optimized_query.getD (rec.optimized_query.getD query),
         some (mkTestRes r)⟩,
       [Op.createSchema env.schemaNameGen, Op.dropSchema env.schemaNameGen]) := by
  obtain ⟨m, rfl⟩ : ∃ m, mx = m + 1 := ⟨mx - 1, (Nat.succ_pred_eq_of_pos hmx).symm⟩
  have hstep : loopStep env query tables bt origHas (m + 1) (initVars query rec) [] =
      .done
        ⟨1, rec, [], some env.schemaNameGen,
         (rec.suggested_indexes.getD []).foldl
           (fun acc stmt =>
             if stmt ∈ acc then acc
             else if env.createIndexOnTemp 1 stmt then acc ++ [stmt] else acc) [],
         rec.optimized_query.getD (rec.optimized_query.getD query),
         some (mkTestRes r)⟩
        none [Op.createSchema env.schemaNameGen] := by
    simp only [loopStep, initVars, hcreate]
    simp only [afterSchema, hexplain, mkTestRes, Nat.zero_add, hsucc, hplan, hstop]
    simp
  simp only [QueryOptimizer.optimizeTestRec, loopGo, hstep]
  simp [initVars]

/-- A baseline plan whose root is a sequential scan. -/
def planWithSeq : Plan := ⟨some (.mk "Seq Scan" []), .mk "" []⟩

/-- A tested plan with an index scan and no sequential scan. -/
def planNoSeq : Plan := ⟨some (.mk "Index Scan" []), .mk "" []⟩

/-- Scenario environment: schema creation succeeds, every EXPLAIN of the
tested query returns success in 200ms with a plan free of sequential scans,
and the refinement call is never needed. -/
def scenario1Env : OptEnv where
  schemaNameGen := "temp_test_a1b2c3d4"
  createTempSchema := fun _ => .ok true
  createIndexOnTemp := fun _ _ => true
  explain := fun _ _ => .ok ⟨true, some planNoSeq, some 200, some 5, none⟩
  geminiFix := fun _ => .error "unused"

/-- The scenario recommendation: one suggested index. -/
def scenario1Rec : Recc :=
  { suggested_indexes := some ["CREATE INDEX idx_users_id ON users (id)"] }

/-- C3: the per-recommendation refinement loop stops without a refinement
call exactly when (a) the baseline had no sequential scan or the tested plan
no longer has one, and (b) the computed improvement is at least 50% — for
any attempt below the cap, the loop's continue-decision is false iff
¬(baseline-scan ∧ still-scan) ∧ improvement ≥ 50.  In particular (second
and third conjuncts), in the spec's scenario — baseline with a sequential
scan at 500ms, first recommendation's index eliminating the scan at 200ms
(60% improvement) — the loop stops immediately with
`optimization_attempts = 1`, `seq_scan_eliminated = true`, an empty
refinement history, and no refinement call in the trace (the trace is just
the schema create and the cleanup drop). -/
theorem C3_stop_condition :
    (∀ (origHas stillHas : Bool) (improvement : ℚ) (attempt mx : Nat),
       attempt < mx →
       (iterationContinues (origHas && stillHas) improvement attempt mx = false ↔
         (¬(origHas = true ∧ stillHas = true) ∧ 50 ≤ improvement))) ∧
    ((QueryOptimizer.optimizeTestRec scenario1Env "SELECT id FROM users" [] 500
        (ExecutionPlanAnalyzer.has_seq_scan planWithSeq) 5 scenario1Rec).1.map
        (fun o => (o.optimization_attempts, o.seq_scan_eliminated,
                   o.optimization_history.length)) = .ok (1, true, 0)) ∧
    ((QueryOptimizer.optimizeTestRec scenario1Env "SELECT id FROM users" [] 500
        (ExecutionPlanAnalyzer.has_seq_scan planWithSeq) 5 scenario1Rec).2 =
      [Op.createSchema "temp_test_a1b2c3d4", Op.dropSchema "temp_test_a1b2c3d4"]) := by
  have hmain := optimizeTestRec_first_attempt scenario1Env "SELECT id FROM users" []
    500 (ExecutionPlanAnalyzer.has_seq_scan planWithSeq) 5 scenario1Rec
    ⟨true, some planNoSeq, some 200, some 5, none⟩ planNoSeq
    (by decide) rfl (fun tq => rfl) rfl rfl
    (by
      have h1 : ExecutionPlanAnalyzer.has_seq_scan planNoSeq = false := by decide
      simp only [iterationContinues, h1, Bool.and_false, Bool.false_or,
        Bool.and_eq_false_iff, decide_eq_false_iff_not, not_lt]
      left
      norm_num [improvementOf])
  refine ⟨?_, ?_, ?_⟩
  · intro origHas stillHas improvement attempt mx h
    have hlt : decide (attempt < mx) = true := decide_eq_true h
    simp only [iterationContinues, hlt, Bool.and_true, Bool.or_eq_false_iff,
      decide_eq_false_iff_not, not_lt, Bool.and_eq_false_iff]
    constructor
    · rintro ⟨h1, h2⟩
      refine ⟨?_, h2⟩
      rintro ⟨ha, hb⟩
      rcases h1 with h1 | h1
      · rw [ha] at h1; cases h1
      · rw [hb] at h1; cases h1
    · rintro ⟨h1, h2⟩
      refine ⟨?_, h2⟩
      cases ho : origHas with
      | false => exact Or.inl rfl
      | true =>
        cases hs : stillHas with
        | false => exact Or.inr rfl
        | true => exact absurd ⟨ho, hs⟩ h1
  · rw [hmain]; rfl
  · rw [hmain]; rfl

/-- C3 witness: at attempt 1 of 5 with the baseline scan eliminated and 60%
improvement, the continue-decision is false exactly per the stop condition. -/
theorem C3_stop_condition_witness :
    iterationContinues (true && false) 60 1 5 = false ↔
      (¬(true = true ∧ false = true) ∧ (50 : ℚ) ≤ 60) :=
  C3_stop_condition.1 true false 60 1 5 (by decide)

/-- Environment for the C5 counterexample: the tested plan still contains a
sequential scan, yet the test succeeds with 60% improvement. -/
def scenario5Env : OptEnv where
  schemaNameGen := "temp_test_c5a5b5c5"
  createTempSchema := fun _ => .ok true
  createIndexOnTemp := fun _ _ => true
  explain := fun _ _ => .ok ⟨true, some planWithSeq, some 40, some 1, none⟩
  geminiFix := fun _ => .error "unused"

/-- C5 counterexample: when the baseline plan has no sequential scan, the
recorded `seq_scan_eliminated` flag is `false`, not `true` — line 385
computes `original_has_seq_scan and not has_seq_scan(...)`, and Python's
`and` yields `False` when the baseline flag is `False`, whatever the tested
plan contains (here the tested plan even still has a sequential scan). -/
theorem C5_counterexample_baseline_without_scan :
    ((QueryOptimizer.optimizeTestRec scenario5Env "SELECT id FROM users" [] 100
        (ExecutionPlanAnalyzer.has_seq_scan planNoSeq) 5 ({} : Recc)).1).map
      (fun o => o.seq_scan_eliminated) = .ok false := by
  rw [optimizeTestRec_first_attempt scenario5Env "SELECT id FROM users" [] 100
    (ExecutionPlanAnalyzer.has_seq_scan planNoSeq) 5 {}
    ⟨true, some planWithSeq, some 40, some 1, none⟩ planWithSeq
    (by decide) rfl (fun tq => rfl) rfl rfl
    (by
      have h0 : ExecutionPlanAnalyzer.has_seq_scan planNoSeq = false := by decide
      simp only [iterationContinues, h0, Bool.false_and, Bool.false_or,
        Bool.and_eq_false_iff, decide_eq_false_iff_not, not_lt]
      left
      norm_num [improvementOf])]
  rfl

/-- With a false baseline flag, the annotation always records
`seq_scan_eliminated = false`. -/
theorem annotateRec_elim_false (query : String) (bt : ℚ) (rec : Recc)
    (v : LoopVars) (out : RecOut) (h : annotateRec query bt false rec v = .ok out) :
    out.seq_scan_eliminated = false := by
  simp only [annotateRec] at h
  cases htr : v.testResult with
  | none => rw [htr] at h; cases h
  | some tr0 =>
    rw [htr] at h
    simp only [Bool.false_eq_true, if_false] at h
    injection h with h2
    subst h2
    rfl

/-- C5 (amended): when the baseline plan has no sequential scan
(`original_has_seq_scan = False`), the `seq_scan_eliminated` flag recorded
on a tested recommendation is `false`, whatever the tested plan contains —
the flag is the conjunction `original_has_seq_scan and not
has_seq_scan(tested plan)`, which Python short-circuits to `False`. -/
theorem C5_amended_flag_false_without_baseline_scan (env : OptEnv)
    (query : String) (tables : List String) (bt : ℚ) (mx : Nat) (rec : Recc)
    (out : RecOut)
    (h : (QueryOptimizer.optimizeTestRec env query tables bt false mx rec).1 = .ok out) :
    out.seq_scan_eliminated = false := by
  simp only [QueryOptimizer.optimizeTestRec] at h
  cases hexc : (loopGo env query tables bt false mx (initVars query rec) [] mx).2.1 with
  | some e => rw [hexc] at h; cases h
  | none =>
    rw [hexc] at h
    exact annotateRec_elim_false query bt rec _ out h

/-- Environment whose EXPLAIN reports a failed test (e.g. a statement
timeout): the loop breaks at attempt 1 after creating the sandbox. -/
def envFailTest : OptEnv where
  schemaNameGen := "temp_test_f0f0f0f0"
  createTempSchema := fun _ => .ok true
  createIndexOnTemp := fun _ _ => true
  explain := fun _ _ => .ok ⟨false, none, none, none, some "statement timeout"⟩
  geminiFix := fun _ => .error "unused"

/-- The annotated output of `envFailTest` on an empty recommendation. -/
def envFailTestOut : RecOut :=
  { recc := {},
    test_result := ⟨false, 0, 0, none, some "statement timeout"⟩,
    optimization_attempts := 1,
    optimization_history := [],
    seq_scan_eliminated := false,
    all_indexes_applied := [],
    final_optimized_query := "q",
    original_query := "q",
    query_was_rewritten := false,
    improvement_percentage := none,
    tested_execution_time := none }

/-- C5 witness: a concrete run with a false baseline flag returns a
recommendation whose flag is false. -/
theorem C5_amended_flag_false_witness :
    (QueryOptimizer.optimizeTestRec envFailTest "q" [] 100 false 5 ({} : Recc)).1 =
      .ok envFailTestOut ∧
    envFailTestOut.seq_scan_eliminated = false :=
  ⟨rfl, C5_amended_flag_false_without_baseline_scan envFailTest "q" [] 100 5 {}
    envFailTestOut rfl⟩

/-- C1 witness: in a concrete run the sandbox schema is created and, by the
theorem, also dropped — for both the optimize loop and the standalone
`test_recommendation`. -/
theorem C1_sandbox_schema_always_dropped_witness :
    (Op.createSchema "temp_test_f0f0f0f0" ∈
        (QueryOptimizer.optimizeTestRec envFailTest "q" [] 100 false 5 ({} : Recc)).2 ∧
      Op.dropSchema "temp_test_f0f0f0f0" ∈
        (QueryOptimizer.optimizeTestRec envFailTest "q" [] 100 false 5 ({} : Recc)).2) ∧
    (Op.createSchema "temp_test_f0f0f0f0" ∈
        (QueryOptimizer.test_recommendation envFailTest "q" ({} : Recc) []).2 ∧
      Op.dropSchema "temp_test_f0f0f0f0" ∈
        (QueryOptimizer.test_recommendation envFailTest "q" ({} : Recc) []).2) :=
  ⟨⟨by decide, C1_sandbox_schema_always_dropped.1 envFailTest "q" [] 100 false 5 {}
      "temp_test_f0f0f0f0" (by decide)⟩,
   ⟨by decide, C1_sandbox_schema_always_dropped.2 envFailTest "q" {} []
      "temp_test_f0f0f0f0" (by decide)⟩⟩

/-- C8: the improvement percentage equals
`(baseline - tested) / baseline * 100` whenever the baseline time is
strictly positive and `0` when the baseline time is `0` — the division is
guarded and never performed with a zero divisor (first two conjuncts, the
computation at optimizer.py lines 314-317).  The third conjunct covers the
recording at lines 393-399: on a successful test with positive baseline the
stored `improvement_percentage` is `round(improvement, 2)` of the same
guarded formula, and with a zero baseline the field is left unset (its
absence reads back as 0 downstream). -/
theorem C8_improvement_guarded :
    (∀ original tested : ℚ, 0 < original →
       improvementOf original tested = (original - tested) / original * 100) ∧
    (∀ tested : ℚ, improvementOf 0 tested = 0) ∧
    (∀ (query : String) (bt : ℚ) (origHas : Bool) (rec : Recc) (v : LoopVars)
       (out : RecOut), annotateRec query bt origHas rec v = .ok out →
       (out.test_result.success = true → 0 < bt →
          out.improvement_percentage =
            some (pyRound2 (improvementOf bt out.test_result.execution_time))) ∧
       (bt = 0 → out.improvement_percentage = none)) := by
  refine ⟨?_, ?_, ?_⟩
  · intro o t h
    simp [improvementOf, h]
  · intro t
    simp [improvementOf]
  · intro query bt origHas rec v out h
    simp only [annotateRec] at h
    split at h
    · cases h
    · split at h
      · cases h
      · injection h with h2
        subst h2
        refine ⟨fun hs hbt => ?_, fun hbt => ?_⟩
        · dsimp only at hs ⊢
          rw [hs, decide_eq_true hbt]
          rfl
        · subst hbt
          dsimp only
          rw [decide_eq_false (lt_irrefl (0 : ℚ))]
          simp

/-- Loop variables after a successful 200ms test of an empty recommendation
against a 500ms baseline, used to witness C8. -/
def c8Vars : LoopVars :=
  ⟨1, {}, [], some "temp_test_c8c8c8c8", [], "q",
   some ⟨true, 200, 5, some planNoSeq, none⟩⟩

/-- The annotation of `c8Vars`. -/
def c8Out : RecOut :=
  { recc := {},
    test_result := ⟨true, 200, 5, some planNoSeq, none⟩,
    optimization_attempts := 1,
    optimization_history := [],
    seq_scan_eliminated := false,
    all_indexes_applied := [],
    final_optimized_query := "q",
    original_query := "q",
    query_was_rewritten := false,
    improvement_percentage := some (pyRound2 (improvementOf 500 200)),
    tested_execution_time := some 200 }

/-- C8 witness: at baseline 500ms the guarded formula applies, at baseline 0
the improvement is 0, and a concrete successful annotation stores the
rounded guarded improvement. -/
theorem C8_improvement_guarded_witness :
    improvementOf 500 200 = ((500 : ℚ) - 200) / 500 * 100 ∧
    improvementOf 0 200 = 0 ∧
    annotateRec "q" 500 false ({} : Recc) c8Vars = .ok c8Out ∧
    c8Out.improvement_percentage =
      some (pyRound2 (improvementOf 500 c8Out.test_result.execution_time)) :=
  ⟨C8_improvement_guarded.1 500 200 (by decide),
   C8_improvement_guarded.2.1 200,
   rfl,
   (C8_improvement_guarded.2.2 "q" 500 false {} c8Vars c8Out rfl).1 rfl (by decide)⟩

/-! ### Final ranking (`optimizer.py`, lines 401-410)

`recommendations.sort(key=lambda r: (r.get('seq_scan_eliminated', False),
r.get('improvement_percentage', 0)), reverse=True)` followed by 1-based rank
assignment.  The ranking only reads these two keys and writes `rank`, so a
recommendation is modelled by exactly those fields (`none` = key absent);
Python compares the key tuples lexicographically, with booleans compared as
the integers 0 and 1. -/

/-- The fields of a recommendation dict that the final ranking touches. -/
structure RankRec where
  seq_scan_eliminated : Option Bool := none
  improvement_percentage : Option ℚ := none
  rank : Option Nat := none
deriving DecidableEq

/-- The Python sort key
`(r.get('seq_scan_eliminated', False), r.get('improvement_percentage', 0))`. -/
def rankKey (r : RankRec) : Bool × ℚ :=
  (r.seq_scan_eliminated.getD false, r.improvement_percentage.getD 0)

/-- Python tuple order on `(bool, number)` keys: booleans compare as 0/1,
ties in the first component fall through to the second. -/
def pyTupleLE (a b : Bool × ℚ) : Prop :=
  a.1.toNat < b.1.toNat ∨ (a.1 = b.1 ∧ a.2 ≤ b.2)

/-- `x` sorts no later than `y` under `reverse=True`: `x`'s key is at least
`y`'s in the tuple order. -/
def recBefore (x y : RankRec) : Prop :=
  pyTupleLE (rankKey y) (rankKey x)

instance : DecidableRel recBefore := fun x y =>
  decidable_of_iff
    ((rankKey y).1.toNat < (rankKey x).1.toNat ∨
      ((rankKey y).1 = (rankKey x).1 ∧ (rankKey y).2 ≤ (rankKey x).2))
    Iff.rfl

/-- The tuple order is total. -/
theorem pyTupleLE_total (a b : Bool × ℚ) : pyTupleLE a b ∨ pyTupleLE b a := by
  rcases a with ⟨ab, aq⟩
  rcases b with ⟨bb, bq⟩
  cases ab <;> cases bb <;>
    first
      | (rcases le_total aq bq with h | h
         · exact Or.inl (Or.inr ⟨rfl, h⟩)
         · exact Or.inr (Or.inr ⟨rfl, h⟩))
      | exact Or.inl (Or.inl Nat.zero_lt_one)
      | exact Or.inr (Or.inl Nat.zero_lt_one)

/-- The tuple order is transitive. -/
theorem pyTupleLE_trans (a b c : Bool × ℚ) :
    pyTupleLE a b → pyTupleLE b c → pyTupleLE a c := by
  rintro (h1 | ⟨h1e, h1q⟩) (h2 | ⟨h2e, h2q⟩)
  · exact Or.inl (Nat.lt_trans h1 h2)
  · exact Or.inl (h2e ▸ h1)
  · exact Or.inl (h1e ▸ h2)
  · exact Or.inr ⟨h1e.trans h2e, le_trans h1q h2q⟩

instance : IsTotal RankRec recBefore :=
  ⟨fun x y => pyTupleLE_total (rankKey y) (rankKey x)⟩

instance : IsTrans RankRec recBefore :=
  ⟨fun _ _ _ hxy hyz => pyTupleLE_trans _ _ _ hyz hxy⟩

/-- The rank-assignment loop `for i, rec in enumerate(recommendations):
rec['rank'] = i + 1` (optimizer.py lines 409-410), started at index `i`. -/
def assignRanks : Nat → List RankRec → List RankRec
  | _, [] => []
  | i, r :: rs => { r with rank := some (i + 1) } :: assignRanks (i + 1) rs

/-- Step 4 of `QueryOptimizer.optimize` (optimizer.py lines 401-410): the
stable descending sort by `(seq_scan_eliminated, improvement_percentage)`
followed by 1-based rank assignment. -/
def rankRecommendations (l : List RankRec) : List RankRec :=
  assignRanks 0 (List.insertionSort recBefore l)

/-- A recommendation with its rank field removed, for permutation
statements. -/
def clearRank (r : RankRec) : RankRec :=
  { r with rank := none }

/-- Rank assignment changes only the rank fields. -/
theorem assignRanks_map_clearRank :
    ∀ (i : Nat) (l : List RankRec),
      (assignRanks i l).map clearRank = l.map clearRank := by
  intro i l
  induction l generalizing i with
  | nil => rfl
  | cons r rs ih => simp [assignRanks, clearRank, ih (i + 1)]

/-- Every element of `assignRanks` is an input element with its rank reset. -/
theorem mem_assignRanks :
    ∀ (i : Nat) (l : List RankRec) (y : RankRec),
      y ∈ assignRanks i l → ∃ x ∈ l, ∃ a, y = { x with rank := a } := by
  intro i l
  induction l generalizing i with
  | nil => intro y hy; simp [assignRanks] at hy
  | cons r rs ih =>
    intro y hy
    rcases List.mem_cons.mp (by simpa [assignRanks] using hy) with rfl | hy2
    · exact ⟨r, List.mem_cons_self r rs, some (i + 1), rfl⟩
    · obtain ⟨x, hx, a, rfl⟩ := ih (i + 1) y hy2
      exact ⟨x, List.mem_cons_of_mem r hx, a, rfl⟩

/-- Rank assignment preserves pairwise key ordering (the order ignores
ranks). -/
theorem pairwise_assignRanks :
    ∀ (i : Nat) (l : List RankRec),
      List.Pairwise recBefore l → List.Pairwise recBefore (assignRanks i l) := by
  intro i l
  induction l generalizing i with
  | nil => intro _; exact List.Pairwise.nil
  | cons r rs ih =>
    intro h
    rcases List.pairwise_cons.mp h with ⟨hr, hrs⟩
    refine List.pairwise_cons.mpr ⟨?_, ih (i + 1) hrs⟩
    intro y hy
    obtain ⟨x, hx, a, rfl⟩ := mem_assignRanks (i + 1) rs y hy
    exact hr x hx

/-- The rank stored at position `k` of `assignRanks i l` is `i + k + 1`. -/
theorem assignRanks_rank :
    ∀ (i : Nat) (l : List RankRec) (k : Nat)
      (hk : k < (assignRanks i l).length),
      ((assignRanks i l).get ⟨k, hk⟩).rank = some (i + k + 1) := by
  intro i l
  induction l generalizing i with
  | nil => intro k hk; simp [assignRanks] at hk
  | cons r rs ih =>
    intro k hk
    cases k with
    | zero => simp [assignRanks]
    | succ k' =>
      have hk' : k' < (assignRanks (i + 1) rs).length := by
        simpa [assignRanks] using hk
      simp only [assignRanks, List.get_cons_succ]
      rw [ih (i + 1) k' hk']
      congr 1
      omega

/-- C4: the final ranking (i) permutes the recommendation list (only rank
fields change), (ii) leaves it pairwise sorted descending by the key tuple
`(seq_scan_eliminated, improvement_percentage)` — so ties in the flag are
broken by improvement percentage, (iii) assigns each recommendation's rank
field its 1-based position, and (iv) any recommendation that eliminated a
sequential scan is placed above every one that did not, regardless of
improvement percentage. -/
theorem C4_ranking_sorts_and_ranks (l : List RankRec) :
    ((rankRecommendations l).map clearRank).Perm (l.map clearRank) ∧
    List.Pairwise recBefore (rankRecommendations l) ∧
    (∀ (k : Nat) (hk : k < (rankRecommendations l).length),
       ((rankRecommendations l).get ⟨k, hk⟩).rank = some (k + 1)) ∧
    (∀ (i j : Fin (rankRecommendations l).length), i < j →
       ((rankRecommendations l).get i).seq_scan_eliminated.getD false = false →
       ((rankRecommendations l).get j).seq_scan_eliminated.getD false = false) := by
  have hsorted : List.Pairwise recBefore (rankRecommendations l) :=
    pairwise_assignRanks 0 _ (List.sorted_insertionSort recBefore l)
  refine ⟨?_, hsorted, ?_, ?_⟩
  · rw [rankRecommendations, assignRanks_map_clearRank]
    exact (List.perm_insertionSort recBefore l).map clearRank
  · intro k hk
    have := assignRanks_rank 0 (List.insertionSort recBefore l) k hk
    simpa using this
  · intro i j hij hx
    have hp := List.pairwise_iff_get.mp hsorted i j hij
    cases hv : ((rankRecommendations l).get j).seq_scan_eliminated.getD false with
    | false => rfl
    | true =>
      exfalso
      rcases hp with h1 | ⟨h2, _⟩
      · simp only [rankKey] at h1
        rw [hx, hv] at h1
        simp at h1
      · simp only [rankKey] at h2
        rw [hx, hv] at h2
        cases h2

/-- Input for the C4 witness: the spec's pair — not-eliminated at 90% and
eliminated at 10% — plus a pair of non-eliminated recommendations. -/
def c4Input : List RankRec :=
  [⟨some false, some 90, none⟩, ⟨some true, some 10, none⟩]

/-- Second C4 witness input with no eliminated recommendation. -/
def c4InputB : List RankRec :=
  [⟨some false, some 90, none⟩, ⟨some false, some 10, none⟩]

/-- C4 witness: the eliminated-with-10% recommendation outranks the
not-eliminated-with-90% one (rank 1 at position 0), and on an input whose
first sorted element is not eliminated, neither is any later one. -/
theorem C4_ranking_sorts_and_ranks_witness :
    rankRecommendations c4Input =
      [⟨some true, some 10, some 1⟩, ⟨some false, some 90, some 2⟩] ∧
    ((rankRecommendations c4Input).get ⟨0, by decide⟩).rank = some 1 ∧
    ((rankRecommendations c4InputB).get
        (⟨1, by decide⟩ : Fin (rankRecommendations c4InputB).length)).seq_scan_eliminated.getD
      false = false :=
  ⟨by decide,
   (C4_ranking_sorts_and_ranks c4Input).2.2.1 0 (by decide),
   (C4_ranking_sorts_and_ranks c4InputB).2.2.2 ⟨0, by decide⟩ ⟨1, by decide⟩
     (by decide) (by decide)⟩
